import Mathlib

/-!
Shallow embedding of `src/paskuda.c` (a terminal password-entry prompt)
and proofs about its input state machine, buffer invariants and exit paths.

Conventions of the embedding:
* Input bytes are `Nat` (the values read one at a time by `read()` at
  line 156 of `paskuda.c`).
* The feedback channel (file descriptor `fd = STDERR_FILENO`, line 131)
  is modelled as a `List Nat` of the bytes written to it, in order.
  Relevant byte values: 8 = backspace `\b`, 32 = space, 7 = bell `\a`,
  42 = the masking character `*`, 10 = newline `\n`, 9 = tab `\t`,
  127 = DEL, 21 = kill-line `^U`.
* The secret buffer `passwd` has capacity `buf_size` (one page); only its
  first `len` bytes are meaningful, and each `read` writes the incoming
  byte at index `len`, so the accepted secret is exactly the list of
  bytes for which `len` was incremented.  We therefore model the buffer
  as the list `buf` of accepted bytes, with `len = buf.length`.
-/

/-- The input state machine's mode (`state`, lines 98-102 of `paskuda.c`):
`STATE_INIT`, `STATE_ECHO`, `STATE_NO_ECHO`. -/
inductive PState where
  | init
  | echo
  | noEcho
deriving DecidableEq

/-- The mutable state of the read loop: the mode `state` and the accepted
secret bytes `passwd[0..len)`. -/
structure M where
  state : PState
  buf : List Nat
deriving DecidableEq

/-- `clear_n` (lines 83-87): write the three bytes `"\b \b"` once per
erased character, `n` times in total. -/
def clearN : Nat → List Nat
  | 0 => []
  | n + 1 => 8 :: 32 :: 8 :: clearN n

/-- `msg_press_tab` (line 95), the transient hint, as its ASCII bytes. -/
def msgPressTab : List Nat := "(press TAB for no echo) ".toList.map Char.toNat

/-- `msg_no_echo` (line 96), the hint shown on entering silent mode. -/
def msgNoEcho : List Nat := "(no echo) ".toList.map Char.toNat

/-- The `switch (c)` dispatch (lines 173-202): backspace/DEL edits,
kill-line, tab toggling, and the default append-or-alert branch.
Returns the new state and the bytes written to the feedback channel. -/
def dispatch (cap : Nat) (s : M) (c : Nat) : M × List Nat :=
  if c = 8 ∨ c = 127 then
    -- lines 175-183
    if s.buf = [] then (s, [7])
    else (⟨s.state, s.buf.dropLast⟩, if s.state = PState.echo then clearN 1 else [])
  else if c = 21 then
    -- lines 184-187: note clear_n(fd, len) is unconditional
    (⟨s.state, []⟩, clearN s.buf.length)
  else if c = 9 then
    -- lines 188-194
    (⟨PState.noEcho, s.buf⟩,
      if s.state = PState.echo then clearN s.buf.length ++ msgNoEcho else [])
  else
    -- lines 195-202
    if s.buf.length < cap - 1 then
      (⟨s.state, s.buf ++ [c]⟩, if s.state = PState.echo then [42] else [])
    else (s, [7])

/-- Processing of one non-terminator byte (lines 162-202): the
`STATE_INIT` branch first erases the press-tab hint; a backspace/DEL as
very first byte enters `STATE_NO_ECHO` and is consumed (`continue`,
line 168); any other first byte switches to `STATE_ECHO` and falls
through to `dispatch`. -/
def step (cap : Nat) (s : M) (c : Nat) : M × List Nat :=
  if s.state = PState.init then
    if c = 8 ∨ c = 127 then
      (⟨PState.noEcho, s.buf⟩, clearN msgPressTab.length ++ msgNoEcho)
    else
      let r := dispatch cap ⟨PState.echo, s.buf⟩ c
      (r.1, clearN msgPressTab.length ++ r.2)
  else dispatch cap s c

/-- The state after processing one byte. -/
def stepState (cap : Nat) (s : M) (c : Nat) : M := (step cap s c).1

/-- The feedback bytes written while processing one byte. -/
def stepOut (cap : Nat) (s : M) (c : Nat) : List Nat := (step cap s c).2

/-- The read loop (lines 154-203) over a list of input bytes.  A byte 10
(`'\n'`) ends the loop without being processed (line 160); exhausting the
list models end-of-stream (`rc == 0`).  Returns the final state and the
concatenated feedback output of the loop. -/
def runLoop (cap : Nat) (s : M) : List Nat → M × List Nat
  | [] => (s, [])
  | c :: rest =>
    if c = 10 then (s, [])
    else
      let r := step cap s c
      let r2 := runLoop cap r.1 rest
      (r2.1, r.2 ++ r2.2)

/-- All states the loop passes through (the state at the top of each
iteration, ending with the state at loop exit). -/
def runStates (cap : Nat) (s : M) : List Nat → List M
  | [] => [s]
  | c :: rest =>
    if c = 10 then [s]
    else s :: runStates cap (stepState cap s c) rest

/-- The feedback written after the loop (lines 204-209): erase the
press-tab hint if it is still shown, erase the shown mask characters if
echoing, then write a newline. -/
def finish (s : M) : List Nat :=
  (if s.state = PState.init then clearN msgPressTab.length else []) ++
  (if s.state = PState.echo then clearN s.buf.length else []) ++ [10]

/-- Result of a complete run: the accepted secret (`passwd[0..len)`),
the feedback bytes written from line 133 (the press-tab hint) through
line 209 (the final newline) — the caller-supplied prompt of line 132 is
outside the machine — and the bytes emitted on standard output by
`xprintf(STDOUT_FILENO, "%s", passwd)` (line 211): since line 204 stores
a NUL terminator at index `len` and `%s` stops at the first NUL byte,
the emitted bytes are the longest NUL-free prefix of the secret. -/
structure RunResult where
  secret : List Nat
  feedback : List Nat
  emitted : List Nat
deriving DecidableEq

/-- A complete run of the read loop from the initial state. -/
def run (cap : Nat) (input : List Nat) : RunResult :=
  let r := runLoop cap ⟨PState.init, []⟩ input
  { secret := r.1.buf
    feedback := msgPressTab ++ r.2 ++ finish r.1
    emitted := r.1.buf.takeWhile (fun b => b != 0) }

/-- One event delivered by `read()` (line 156): a byte, end-of-stream
(`rc == 0`), or a read error (`rc < 0`, which calls `xerror`). -/
inductive InEv where
  | byte (b : Nat)
  | eof
  | rerr
deriving DecidableEq

/-- The read loop over a stream of read events.  `some` is the normal
loop exit (line 204 onward); `none` is the fatal path through
`xerror("read()")` (line 159), which calls `exit(EXIT_FAILURE)`.
An exhausted event list is treated as end-of-stream. -/
def runLoopE (cap : Nat) (s : M) : List InEv → Option M
  | [] => some s
  | InEv.eof :: _ => some s
  | InEv.rerr :: _ => none
  | InEv.byte b :: rest =>
    if b = 10 then some s
    else runLoopE cap (stepState cap s b) rest

/-- What happens on process exit for a given event stream.  On the
normal path, lines 204-213 run: the terminal is restored (line 210) and
the buffer is scrubbed by `xmemset` (line 212) before `free`.  On the
fatal path, `xerror` calls `exit`, which runs only the `atexit` handler
`restore_tty` registered at line 70: the terminal is restored but no
scrub of `passwd` is ever performed. -/
structure ExitInfo where
  normalExit : Bool
  scrubbed : Bool
  ttyRestored : Bool
deriving DecidableEq

/-- Exit behaviour of a run that reads the given event stream. -/
def runExit (cap : Nat) (evs : List InEv) : ExitInfo :=
  match runLoopE cap ⟨PState.init, []⟩ evs with
  | some _ => ⟨true, true, true⟩
  | none => ⟨false, false, true⟩

/-- Terminal attributes, reduced to the two local-mode bits the program
touches (`tio.c_lflag &= ~(ECHO | ICANON)`, line 65) plus everything
else. -/
structure Termios where
  echo : Bool
  icanon : Bool
  rest : Nat
deriving DecidableEq

/-- Line 65: clear the `ECHO` and `ICANON` bits. -/
def rawMode (t : Termios) : Termios := { t with echo := false, icanon := false }

/-- The process-wide terminal session: `tty_fd` (line 45, `-1` when not
engaged), the saved attributes `orig_tio` (line 46), and the attribute
set currently installed on the device. -/
structure Session where
  ttyFd : Int
  origTio : Termios
  term : Termios
deriving DecidableEq

/-- `init_tty` (lines 58-71): capture the current attributes into
`orig_tio`, install raw mode, record the fd, and register `restore_tty`
with `atexit`. -/
def init_tty (fd : Nat) (s : Session) : Session :=
  { s with origTio := s.term, term := rawMode s.term, ttyFd := (fd : Int) }

/-- `restore_tty` (lines 48-56): a no-op when `tty_fd < 0`, otherwise
reinstall `orig_tio` and set `tty_fd = -1` (making a second call a
no-op). -/
def restore_tty (s : Session) : Session :=
  if s.ttyFd < 0 then s else { s with term := s.origTio, ttyFd := -1 }

/-- The three kinds of process termination: normal return from `main`,
a fatal error through `xerror` → `exit`, and death by a signal whose
default disposition terminates the process. -/
inductive ExitPath where
  | normal
  | fatalError
  | signalKill
deriving DecidableEq

/-- The terminal session observed after the process is gone, per exit
path.  Normal return reaches `restore_tty()` at line 210 (and the
`atexit` copy is then a no-op); `exit()` inside `xerror` runs the
`atexit` handler `restore_tty`; a terminating signal kills the process
without running `atexit` handlers, and `paskuda.c` installs no signal
handlers, so nothing restores the attributes on that path. -/
def ttyAfterExit (p : ExitPath) (s : Session) : Session :=
  match p with
  | ExitPath.normal => restore_tty s
  | ExitPath.fatalError => restore_tty s
  | ExitPath.signalKill => s

/-! ### Helper lemmas -/

lemma count_42_clearN (n : Nat) : (clearN n).count 42 = 0 := by
  induction n with
  | zero => rfl
  | succ n ih => simp [clearN, ih]

lemma count_42_msgPressTab : msgPressTab.count 42 = 0 := by decide

lemma count_42_msgNoEcho : msgNoEcho.count 42 = 0 := by decide

lemma step_not_init (cap : Nat) (s : M) (c : Nat) (h : s.state ≠ PState.init) :
    step cap s c = dispatch cap s c := by
  simp [step, h]

lemma dispatch_other (cap : Nat) (s : M) (c : Nat)
    (h8 : c ≠ 8) (h127 : c ≠ 127) (h21 : c ≠ 21) (h9 : c ≠ 9)
    (hroom : s.buf.length < cap - 1) :
    dispatch cap s c =
      (⟨s.state, s.buf ++ [c]⟩, if s.state = PState.echo then [42] else []) := by
  simp [dispatch, h8, h127, h21, h9, hroom]

lemma runLoop_echo (cap : Nat) : ∀ (bytes b : List Nat),
    (∀ c ∈ bytes, 32 ≤ c ∧ c ≤ 126) → b.length + bytes.length < cap →
    runLoop cap ⟨PState.echo, b⟩ (bytes ++ [10]) =
      (⟨PState.echo, b ++ bytes⟩, List.replicate bytes.length 42) := by
  intro bytes
  induction bytes with
  | nil => intro b _ _; simp [runLoop]
  | cons c rest ih =>
    intro b hp hlen
    have hc := hp c (List.mem_cons_self c rest)
    have hc10 : c ≠ 10 := by omega
    have hroom : b.length < cap - 1 := by
      simp only [List.length_cons] at hlen; omega
    have hstep : step cap ⟨PState.echo, b⟩ c = (⟨PState.echo, b ++ [c]⟩, [42]) := by
      rw [step_not_init cap ⟨PState.echo, b⟩ c (by simp),
        dispatch_other cap ⟨PState.echo, b⟩ c (by omega) (by omega) (by omega) (by omega) hroom]
      simp
    have ih' := ih (b ++ [c]) (fun x hx => hp x (List.mem_cons_of_mem c hx))
      (by simp only [List.length_append, List.length_cons, List.length_nil] at hlen ⊢; omega)
    simp [runLoop, hc10, hstep, ih', List.replicate_succ]

lemma mem_dispatch_buf (cap : Nat) (s : M) (c b : Nat)
    (hb : b ∈ (dispatch cap s c).1.buf) :
    b ∈ s.buf ∨ (b = c ∧ c ≠ 8 ∧ c ≠ 127 ∧ c ≠ 21 ∧ c ≠ 9) := by
  unfold dispatch at hb
  by_cases h8 : c = 8 ∨ c = 127
  · simp only [h8, if_true] at hb
    by_cases hnil : s.buf = []
    · simp only [hnil, if_true] at hb
      exact absurd hb (by simp)
    · simp only [hnil, if_false] at hb
      exact Or.inl (List.dropLast_subset s.buf hb)
  · simp only [h8, if_false] at hb
    by_cases h21 : c = 21
    · simp [h21] at hb
    · simp only [h21, if_false] at hb
      by_cases h9 : c = 9
      · simp only [h9, if_true] at hb
        exact Or.inl hb
      · simp only [h9, if_false] at hb
        by_cases hroom : s.buf.length < cap - 1
        · simp only [hroom, if_true] at hb
          rcases List.mem_append.mp hb with h | h
          · exact Or.inl h
          · exact Or.inr ⟨List.mem_singleton.mp h, fun h' => h8 (Or.inl h'),
              fun h' => h8 (Or.inr h'), h21, h9⟩
        · simp only [hroom, if_false] at hb
          exact Or.inl hb

lemma mem_stepState_buf (cap : Nat) (s : M) (c b : Nat)
    (hb : b ∈ (stepState cap s c).buf) :
    b ∈ s.buf ∨ (b = c ∧ c ≠ 8 ∧ c ≠ 127 ∧ c ≠ 21 ∧ c ≠ 9) := by
  unfold stepState step at hb
  by_cases hinit : s.state = PState.init
  · simp only [hinit, if_true] at hb
    by_cases h8 : c = 8 ∨ c = 127
    · simp only [h8, if_true] at hb
      exact Or.inl hb
    · simp only [h8, if_false] at hb
      exact mem_dispatch_buf cap ⟨PState.echo, s.buf⟩ c b hb
  · simp only [hinit, if_false] at hb
    exact mem_dispatch_buf cap s c b hb

lemma runLoop_buf_mem (cap : Nat) : ∀ (input : List Nat) (s : M) (b : Nat),
    b ∈ (runLoop cap s input).1.buf →
    b ∈ s.buf ∨ (b ≠ 8 ∧ b ≠ 127 ∧ b ≠ 21 ∧ b ≠ 9 ∧ b ≠ 10) := by
  intro input
  induction input with
  | nil => intro s b hb; exact Or.inl hb
  | cons c rest ih =>
    intro s b hb
    by_cases hc : c = 10
    · simp only [runLoop, hc, if_true] at hb
      exact Or.inl hb
    · simp only [runLoop, hc, if_false] at hb
      rcases ih (stepState cap s c) b hb with h | h
      · rcases mem_stepState_buf cap s c b h with h' | h'
        · exact Or.inl h'
        · rcases h' with ⟨hbc, h8, h127, h21, h9⟩
          subst hbc
          exact Or.inr ⟨h8, h127, h21, h9, hc⟩
      · exact Or.inr h

lemma step_noEcho (cap : Nat) (s : M) (c : Nat) (h : s.state = PState.noEcho) :
    (stepState cap s c).state = PState.noEcho ∧ (stepOut cap s c).count 42 = 0 := by
  have hni : s.state ≠ PState.init := by rw [h]; intro hk; cases hk
  unfold stepState stepOut
  rw [step_not_init cap s c hni]
  have hne : s.state ≠ PState.echo := by rw [h]; intro hk; cases hk
  unfold dispatch
  split_ifs <;> simp_all [count_42_clearN]

lemma runLoop_noEcho (cap : Nat) : ∀ (post : List Nat) (s : M),
    s.state = PState.noEcho →
    (∀ t ∈ runStates cap s post, t.state = PState.noEcho) ∧
    ((runLoop cap s post).2).count 42 = 0 ∧
    ((runLoop cap s post).1).state = PState.noEcho := by
  intro post
  induction post with
  | nil =>
    intro s h
    refine ⟨?_, rfl, h⟩
    intro t ht
    simp only [runStates, List.mem_singleton] at ht
    rw [ht]; exact h
  | cons c rest ih =>
    intro s h
    by_cases hc : c = 10
    · refine ⟨?_, by simp [runLoop, hc], by simp [runLoop, hc, h]⟩
      intro t ht
      simp only [runStates, hc, if_true, List.mem_singleton] at ht
      rw [ht]; exact h
    · have hstep := step_noEcho cap s c h
      have ihr := ih (stepState cap s c) hstep.1
      refine ⟨?_, ?_, ?_⟩
      · intro t ht
        simp only [runStates, hc, if_false, List.mem_cons] at ht
        rcases ht with ht | ht
        · rw [ht]; exact h
        · exact ihr.1 t ht
      · simp only [runLoop, hc, if_false, List.count_append]
        have h1 : ((step cap s c).2).count 42 = 0 := hstep.2
        have h2 : ((runLoop cap (step cap s c).1 rest).2).count 42 = 0 := ihr.2.1
        omega
      · simp only [runLoop, hc, if_false]
        exact ihr.2.2

lemma dispatch_len (cap : Nat) (s : M) (c : Nat) (h : s.buf.length ≤ cap - 1) :
    (dispatch cap s c).1.buf.length ≤ cap - 1 := by
  unfold dispatch
  split_ifs <;> simp_all [List.length_dropLast] <;> omega

lemma stepState_len (cap : Nat) (s : M) (c : Nat) (h : s.buf.length ≤ cap - 1) :
    (stepState cap s c).buf.length ≤ cap - 1 := by
  unfold stepState step
  by_cases hinit : s.state = PState.init
  · simp only [hinit, if_true]
    by_cases h8 : c = 8 ∨ c = 127
    · simp only [h8, if_true]; exact h
    · simp only [h8, if_false]
      exact dispatch_len cap ⟨PState.echo, s.buf⟩ c h
  · simp only [hinit, if_false]
    exact dispatch_len cap s c h

lemma runStates_len (cap : Nat) : ∀ (input : List Nat) (s : M),
    s.buf.length ≤ cap - 1 →
    ∀ t ∈ runStates cap s input, t.buf.length ≤ cap - 1 := by
  intro input
  induction input with
  | nil =>
    intro s h t ht
    simp only [runStates, List.mem_singleton] at ht
    rw [ht]; exact h
  | cons c rest ih =>
    intro s h t ht
    by_cases hc : c = 10
    · simp only [runStates, hc, if_true, List.mem_singleton] at ht
      rw [ht]; exact h
    · simp only [runStates, hc, if_false, List.mem_cons] at ht
      rcases ht with ht | ht
      · rw [ht]; exact h
      · exact ih (stepState cap s c) (stepState_len cap s c h) t ht

lemma takeWhile_nul_not_mem : ∀ (l : List Nat),
    (0 : Nat) ∉ l.takeWhile (fun b => b != 0) := by
  intro l
  induction l with
  | nil => simp [List.takeWhile]
  | cons c rest ih =>
    by_cases hc : c = 0
    · subst hc; simp [List.takeWhile]
    · simp only [List.takeWhile, hc]
      intro hmem
      have : (c != 0) = true := by simp [hc]
      rw [this] at hmem
      simp only [List.mem_cons] at hmem
      rcases hmem with h | h
      · exact hc h.symm
      · exact ih h

lemma dropWhile_nul_head : ∀ (l : List Nat), (0 : Nat) ∈ l →
    (l.dropWhile (fun b => b != 0)).head? = some 0 := by
  intro l
  induction l with
  | nil => intro h; simp at h
  | cons c rest ih =>
    intro h
    by_cases hc : c = 0
    · subst hc; simp [List.dropWhile]
    · have hr : (0 : Nat) ∈ rest := by
        rcases List.mem_cons.mp h with h0 | h0
        · exact absurd h0.symm hc
        · exact h0
      have : (c != 0) = true := by simp [hc]
      simp only [List.dropWhile, this]
      exact ih hr

/-! ### Claim theorems -/

/-- C1: for every sequence of non-control printable bytes whose length is
less than the buffer capacity minus one, feeding those bytes followed by
the line terminator 10 yields a final secret exactly equal to the typed
bytes (the terminator excluded), and the feedback stream contains exactly
one masking character 42 (`*`) per typed byte. -/
theorem C1_echo_roundtrip (cap : Nat) (bytes : List Nat)
    (hp : ∀ c ∈ bytes, 32 ≤ c ∧ c ≤ 126)
    (hlen : bytes.length < cap - 1) :
    (run cap (bytes ++ [10])).secret = bytes ∧
    ((run cap (bytes ++ [10])).feedback).count 42 = bytes.length := by
  cases bytes with
  | nil =>
    simp [run, runLoop, finish, List.count_append, count_42_clearN,
      count_42_msgPressTab]
  | cons c rest =>
    have hc := hp c (List.mem_cons_self c rest)
    have hc10 : c ≠ 10 := by omega
    have h8 : ¬(c = 8 ∨ c = 127) := by omega
    have hroom : (0 : Nat) < cap - 1 := by
      simp only [List.length_cons] at hlen; omega
    have hstep : step cap ⟨PState.init, []⟩ c =
        (⟨PState.echo, [c]⟩, clearN msgPressTab.length ++ [42]) := by
      simp only [step, if_true, h8, if_false]
      rw [dispatch_other cap ⟨PState.echo, []⟩ c (by omega) (by omega)
        (by omega) (by omega) (by simpa using hroom)]
      simp
    have hrest := runLoop_echo cap rest [c]
      (fun x hx => hp x (List.mem_cons_of_mem c hx))
      (by simp only [List.length_cons, List.length_nil] at hlen ⊢; omega)
    have hloop : runLoop cap ⟨PState.init, []⟩ ((c :: rest) ++ [10]) =
        (⟨PState.echo, c :: rest⟩,
          (clearN msgPressTab.length ++ [42]) ++ List.replicate rest.length 42) := by
      simp only [List.cons_append, runLoop, hc10, if_false, hstep, hrest]
      simp [hrest]
    constructor
    · show (runLoop cap ⟨PState.init, []⟩ ((c :: rest) ++ [10])).1.buf = c :: rest
      rw [hloop]
    · show ((msgPressTab ++
          (runLoop cap ⟨PState.init, []⟩ ((c :: rest) ++ [10])).2 ++
          finish (runLoop cap ⟨PState.init, []⟩ ((c :: rest) ++ [10])).1).count 42) =
        (c :: rest).length
      rw [hloop]
      simp [finish, List.count_append, count_42_clearN, count_42_msgPressTab,
        List.count_replicate]

/-- Witness for C1 at a concrete input. -/
theorem C1_echo_roundtrip_witness :
    (run 16 ([97, 98, 99] ++ [10])).secret = [97, 98, 99] ∧
    ((run 16 ([97, 98, 99] ++ [10])).feedback).count 42 = [97, 98, 99].length :=
  C1_echo_roundtrip 16 [97, 98, 99] (by decide) (by decide)

/-- C2 counterexample: with input byte 1 (a control byte, `^A`), the loop
exits with the control byte 1 counted in the buffer's length — the
`default` branch of the switch appends any byte it does not handle,
control or not. -/
theorem C2_counterexample :
    (run 16 [1, 10]).secret = [1] ∧ ¬(32 ≤ (1 : Nat) ∧ (1 : Nat) ≠ 127) := by
  decide

/-- C2 amended: the bytes the state machine itself handles — backspace 8,
DEL 127, kill-line 21, tab 9 and the terminator 10 — are never appended
to the secret buffer; other control bytes (for example 1) are appended
like any printable byte. -/
theorem C2_no_handled_byte_in_secret (cap : Nat) (input : List Nat) :
    ∀ b ∈ (run cap input).secret,
      b ≠ 8 ∧ b ≠ 127 ∧ b ≠ 21 ∧ b ≠ 9 ∧ b ≠ 10 := by
  intro b hb
  have hb' : b ∈ (runLoop cap ⟨PState.init, []⟩ input).1.buf := hb
  rcases runLoop_buf_mem cap input ⟨PState.init, []⟩ b hb' with h | h
  · exact absurd h (by simp)
  · exact h

/-- Witness for the amended C2 at a concrete input. -/
theorem C2_no_handled_byte_in_secret_witness :
    (97 : Nat) ≠ 8 ∧ (97 : Nat) ≠ 127 ∧ (97 : Nat) ≠ 21 ∧
      (97 : Nat) ≠ 9 ∧ (97 : Nat) ≠ 10 :=
  C2_no_handled_byte_in_secret 16 [97, 10] 97 (by decide)

/-- C3 counterexample: the state `⟨noEcho, [97]⟩` is reachable (type `a`,
then tab); processing kill-line 21 there emits the erase sequence
`"\b \b"` on the feedback channel even though the mode is Silent,
because `clear_n(fd, len)` at line 185 is not guarded by the state. -/
theorem C3_counterexample :
    (runLoop 16 ⟨PState.init, []⟩ [97, 9]).1 = ⟨PState.noEcho, [97]⟩ ∧
    stepOut 16 ⟨PState.noEcho, [97]⟩ 21 = [8, 32, 8] ∧
    (stepState 16 ⟨PState.noEcho, [97]⟩ 21).buf = [] := by
  decide

/-- C3 amended: processing kill-line 21 in any state other than
`Undecided` resets the buffer length to zero and emits exactly one erase
sequence per byte previously held, regardless of whether the mode is
Echoing or Silent. -/
theorem C3_kill_line (cap : Nat) (s : M) (h : s.state ≠ PState.init) :
    step cap s 21 = (⟨s.state, []⟩, clearN s.buf.length) := by
  rw [step_not_init cap s 21 h]
  simp [dispatch]

/-- Witness for the amended C3 at a concrete state. -/
theorem C3_kill_line_witness :
    step 16 ⟨PState.echo, [97, 98]⟩ 21 = (⟨PState.echo, []⟩, clearN 2) :=
  C3_kill_line 16 ⟨PState.echo, [97, 98]⟩ (by decide)

/-- C4 counterexample: when backspace 8 is the very first byte, it is
processed while the buffer length is zero, yet the whole run's feedback
contains no bell 7 — the `STATE_INIT` branch consumes the byte with
`continue` before the alert-emitting dispatch is reached. -/
theorem C4_counterexample :
    (run 16 [8, 10]).secret = [] ∧ (7 : Nat) ∉ (run 16 [8, 10]).feedback := by
  decide

/-- C4 amended: a backspace/DEL byte processed while the buffer is empty
never decrements the length (it stays zero), and the bell 7 is emitted
whenever the mode is no longer `Undecided`; in the `Undecided` state the
byte instead selects Silent mode without an alert. -/
theorem C4_backspace_empty (cap : Nat) (s : M) (c : Nat)
    (hc : c = 8 ∨ c = 127) (hb : s.buf = []) :
    (stepState cap s c).buf = [] ∧
    (s.state ≠ PState.init → stepOut cap s c = [7]) := by
  by_cases hinit : s.state = PState.init
  · refine ⟨?_, fun h => absurd hinit h⟩
    simp [stepState, step, hinit, hc, hb]
  · refine ⟨?_, fun _ => ?_⟩
    · simp [stepState, step, hinit, dispatch, hc, hb]
    · simp [stepOut, step, hinit, dispatch, hc, hb]

/-- Witness for the amended C4 at a concrete state. -/
theorem C4_backspace_empty_witness :
    (stepState 16 ⟨PState.echo, []⟩ 8).buf = [] ∧
    (PState.echo ≠ PState.init → stepOut 16 ⟨PState.echo, []⟩ 8 = [7]) :=
  C4_backspace_empty 16 ⟨PState.echo, []⟩ 8 (Or.inl rfl) rfl

/-- C5: a backspace/DEL byte as the very first byte processed (mode still
`Undecided`) switches the machine to Silent mode, prints the no-echo
hint after erasing the press-tab hint, leaves the buffer empty, and the
rest of the run continues from the Silent state with an empty buffer. -/
theorem C5_first_backspace (cap : Nat) (c : Nat) (rest : List Nat)
    (hc : c = 8 ∨ c = 127) :
    step cap ⟨PState.init, []⟩ c =
      (⟨PState.noEcho, []⟩, clearN msgPressTab.length ++ msgNoEcho) ∧
    (runLoop cap ⟨PState.init, []⟩ (c :: rest)).1 =
      (runLoop cap ⟨PState.noEcho, []⟩ rest).1 := by
  have hc10 : c ≠ 10 := by rcases hc with h | h <;> omega
  have hstep : step cap ⟨PState.init, []⟩ c =
      (⟨PState.noEcho, []⟩, clearN msgPressTab.length ++ msgNoEcho) := by
    simp [step, hc]
  refine ⟨hstep, ?_⟩
  simp only [runLoop, hc10, if_false, hstep]

/-- Witness for C5 at a concrete input. -/
theorem C5_first_backspace_witness :
    step 16 ⟨PState.init, []⟩ 8 =
      (⟨PState.noEcho, []⟩, clearN msgPressTab.length ++ msgNoEcho) ∧
    (runLoop 16 ⟨PState.init, []⟩ (8 :: [120, 10])).1 =
      (runLoop 16 ⟨PState.noEcho, []⟩ [120, 10]).1 :=
  C5_first_backspace 16 8 [120, 10] (Or.inl rfl)

/-- C6: the mode never re-enters `Undecided` once left; processing a tab
byte 9 yields Silent mode with the accepted bytes untouched; and from any
Silent state the mode stays Silent for the whole remaining run, with no
masking character 42 emitted by the remaining loop iterations or by the
post-loop feedback. -/
theorem C6_silent_absorbing (cap : Nat) (s : M) (c : Nat) (post : List Nat) :
    (s.state ≠ PState.init → (stepState cap s c).state ≠ PState.init) ∧
    ((stepState cap s 9).state = PState.noEcho ∧ (stepState cap s 9).buf = s.buf) ∧
    (s.state = PState.noEcho →
      (∀ t ∈ runStates cap s post, t.state = PState.noEcho) ∧
      ((runLoop cap s post).2).count 42 = 0 ∧
      (finish (runLoop cap s post).1).count 42 = 0) := by
  refine ⟨?_, ?_, ?_⟩
  · intro hni
    unfold stepState
    rw [step_not_init cap s c hni]
    unfold dispatch
    split_ifs <;> simp_all
  · rcases s with ⟨st, buf⟩
    cases st <;> simp [stepState, step, dispatch]
  · intro h
    have hr := runLoop_noEcho cap post s h
    refine ⟨hr.1, hr.2.1, ?_⟩
    have hfin : ((runLoop cap s post).1).state = PState.noEcho := hr.2.2
    simp [finish, hfin]

/-- Witness for C6 at a concrete Silent state and suffix. -/
theorem C6_silent_absorbing_witness :
    (stepState 16 ⟨PState.noEcho, [97]⟩ 98).state ≠ PState.init ∧
    (stepState 16 ⟨PState.noEcho, [97]⟩ 9).buf = [97] ∧
    ((runLoop 16 ⟨PState.noEcho, [97]⟩ [98, 99]).2).count 42 = 0 :=
  ⟨(C6_silent_absorbing 16 ⟨PState.noEcho, [97]⟩ 98 [98, 99]).1 (by decide),
   (C6_silent_absorbing 16 ⟨PState.noEcho, [97]⟩ 98 [98, 99]).2.1.2,
   ((C6_silent_absorbing 16 ⟨PState.noEcho, [97]⟩ 98 [98, 99]).2.2 rfl).2.1⟩

/-- C7: along any run from the initial state the buffer length never
exceeds capacity minus one (hence stays below capacity whenever the
capacity is positive, so the loop assertion and the terminator write at
index `len` are in bounds); and a byte that reaches the `default` branch
while the length equals capacity minus one is rejected with a bell 7
instead of being appended. -/
theorem C7_length_invariant (cap : Nat) (input : List Nat) :
    (∀ t ∈ runStates cap ⟨PState.init, []⟩ input,
      t.buf.length ≤ cap - 1 ∧ (0 < cap → t.buf.length < cap)) ∧
    (∀ (s : M) (c : Nat), s.buf.length = cap - 1 →
      c ≠ 8 → c ≠ 127 → c ≠ 21 → c ≠ 9 →
      (stepState cap s c).buf = s.buf ∧ (7 : Nat) ∈ stepOut cap s c) := by
  constructor
  · intro t ht
    have h := runStates_len cap input ⟨PState.init, []⟩ (by simp) t ht
    exact ⟨h, fun hcap => by omega⟩
  · intro s c hfull h8 h127 h21 h9
    have hor : ¬(c = 8 ∨ c = 127) := by
      intro h; rcases h with h | h
      · exact h8 h
      · exact h127 h
    have hnr : ¬(s.buf.length < cap - 1) := by omega
    have hdisp : dispatch cap s c = (s, [7]) := by
      simp [dispatch, hor, h21, h9, hnr]
    by_cases hinit : s.state = PState.init
    · constructor
      · simp [stepState, step, hinit, hor, dispatch, h21, h9, hnr]
      · simp [stepOut, step, hinit, hor, dispatch, h21, h9, hnr]
    · rw [show stepState cap s c = (dispatch cap s c).1 from by
          unfold stepState; rw [step_not_init cap s c hinit],
        show stepOut cap s c = (dispatch cap s c).2 from by
          unfold stepOut; rw [step_not_init cap s c hinit],
        hdisp]
      exact ⟨rfl, by simp⟩

/-- Witness for C7 at a concrete run (capacity 4, full buffer rejects). -/
theorem C7_length_invariant_witness :
    ((⟨PState.echo, [97, 98, 99]⟩ : M).buf.length ≤ 4 - 1 ∧
      (0 < 4 → (⟨PState.echo, [97, 98, 99]⟩ : M).buf.length < 4)) ∧
    ((stepState 4 ⟨PState.echo, [97, 98, 99]⟩ 100).buf = [97, 98, 99] ∧
      (7 : Nat) ∈ stepOut 4 ⟨PState.echo, [97, 98, 99]⟩ 100) :=
  ⟨(C7_length_invariant 4 [97, 98, 99, 100, 10]).1
      ⟨PState.echo, [97, 98, 99]⟩ (by decide),
   (C7_length_invariant 4 [97, 98, 99, 100, 10]).2
      ⟨PState.echo, [97, 98, 99]⟩ 100 (by decide) (by decide) (by decide)
      (by decide) (by decide)⟩

/-- C8 counterexample: a read error after input reading has begun takes
the fatal path through `xerror`, and the process exits without the
`xmemset` scrub ever running — the buffer is not overwritten on that
exit path. -/
theorem C8_counterexample :
    (runExit 16 [InEv.byte 97, InEv.rerr]).scrubbed = false ∧
    (runExit 16 [InEv.byte 97, InEv.rerr]).normalExit = false := by
  decide

/-- C8 amended: the secret buffer is scrubbed exactly on the normal
completion path (lines 204-213); fatal-error exits through `xerror`
terminate the process without scrubbing, since `exit` runs only the
`restore_tty` handler. -/
theorem C8_scrub_iff_normal (cap : Nat) (evs : List InEv) :
    (runExit cap evs).scrubbed = (runExit cap evs).normalExit := by
  unfold runExit
  cases runLoopE cap ⟨PState.init, []⟩ evs <;> rfl

/-- C9 counterexample: with initial attributes having the echo bit set,
engaging raw mode and then dying from a signal leaves the terminal in
raw mode — no signal handler is installed and `atexit` handlers do not
run on signal-triggered termination, so the observed settings differ
from the captured ones. -/
theorem C9_counterexample :
    (ttyAfterExit ExitPath.signalKill
      (init_tty 0 ⟨-1, ⟨false, false, 0⟩, ⟨true, true, 0⟩⟩)).term ≠
    (⟨true, true, 0⟩ : Termios) := by
  decide

/-- C9 amended: after `init_tty`, the terminal settings observed after
process exit equal the captured settings on the normal-return path and
on the fatal-error path (both reach `restore_tty`, directly or through
`atexit`), and a second restore is a no-op; signal-triggered termination
is not covered, as the program installs no signal handlers. -/
theorem C9_restore_normal_and_fatal (s : Session) (fd : Nat) :
    (ttyAfterExit ExitPath.normal (init_tty fd s)).term = s.term ∧
    (ttyAfterExit ExitPath.fatalError (init_tty fd s)).term = s.term ∧
    restore_tty (restore_tty (init_tty fd s)) = restore_tty (init_tty fd s) := by
  have hfd : ¬((fd : Int) < 0) := by
    have := Int.natCast_nonneg fd
    omega
  constructor
  · simp [ttyAfterExit, restore_tty, init_tty, hfd]
  constructor
  · simp [ttyAfterExit, restore_tty, init_tty, hfd]
  · simp [restore_tty, init_tty, hfd]

/-- C10: when the accepted secret contains the NUL byte 0 (which the
`default` branch appends like any other unhandled byte), the bytes
emitted on standard output are a strict truncation of the secret: they
contain no NUL, appending the remainder of the secret starting at the
first NUL restores the secret, and the byte at the truncation point is
NUL — the consequence of emitting the buffer with `"%s"` after writing a
NUL terminator. -/
theorem C10_nul_truncation (cap : Nat) (input : List Nat)
    (h : (0 : Nat) ∈ (run cap input).secret) :
    (run cap input).emitted ≠ (run cap input).secret ∧
    (0 : Nat) ∉ (run cap input).emitted ∧
    (run cap input).emitted ++
      (run cap input).secret.dropWhile (fun b => b != 0) =
      (run cap input).secret ∧
    ((run cap input).secret.dropWhile (fun b => b != 0)).head? = some 0 := by
  have hemit : (run cap input).emitted =
      (run cap input).secret.takeWhile (fun b => b != 0) := rfl
  have hnm : (0 : Nat) ∉ (run cap input).emitted := by
    rw [hemit]; exact takeWhile_nul_not_mem _
  refine ⟨?_, hnm, ?_, dropWhile_nul_head _ h⟩
  · intro heq
    rw [heq] at hnm
    exact hnm h
  · rw [hemit]
    exact List.takeWhile_append_dropWhile (fun b => b != 0) (run cap input).secret

/-- Witness for C10 at a concrete input containing a NUL byte. -/
theorem C10_nul_truncation_witness :
    (run 16 [97, 0, 98, 10]).emitted ≠ (run 16 [97, 0, 98, 10]).secret ∧
    (0 : Nat) ∉ (run 16 [97, 0, 98, 10]).emitted ∧
    (run 16 [97, 0, 98, 10]).emitted ++
      (run 16 [97, 0, 98, 10]).secret.dropWhile (fun b => b != 0) =
      (run 16 [97, 0, 98, 10]).secret ∧
    ((run 16 [97, 0, 98, 10]).secret.dropWhile (fun b => b != 0)).head? =
      some 0 :=
  C10_nul_truncation 16 [97, 0, 98, 10] (by decide)
